import Mathlib

/-!
Shallow embedding of `src/extension.ts` of fbricon/vscode-docview.

The extension is a debounced cursor-to-documentation pipeline:
a selection-change handler records the last cursor position and
(re)schedules a 100ms debounce timer; the timer callback fetches hover
information (`getHoverInfo`), which is rendered through markdown-it and
wrapped in a page shell (`getWebviewContent`) and written into a singleton
webview panel (`docViewer`), managed by `openDocViewer` / the
`onDidDispose` hook.

Modelling conventions:
* JavaScript values that may be absent (`undefined`/`null` results) become
  `Option`; a JavaScript expression that can throw becomes `Except JsError`.
* The host environment (active editor, hover providers, timers) is passed
  in explicitly; asynchronous suspension points (`await`) split a function
  into a "start" and a "complete" step so interleavings with panel disposal
  can be expressed.
* `md.render` of the markdown-it library is not code of this repository;
  functions that call it take the render function as an explicit argument,
  so theorems quantify over it.
-/

/-- A JavaScript runtime error. `typeError` models the `TypeError` thrown by
the `in` operator when its right operand is `null`. -/
inductive JsError where
  | typeError
deriving DecidableEq

/-- One content fragment of a `vscode.Hover`, as a runtime JavaScript value.
The source inspects the value with `instanceof vscode.MarkdownString`,
`typeof content === 'string'` and
`typeof content === 'object' && 'language' in content && 'value' in content`,
so the shapes that matter are:
* `markdownStr v` — an instance of `vscode.MarkdownString` with `.value = v`;
* `plainStr s` — a primitive string;
* `obj lang val` — any other non-null object (including arrays); `lang`/`val`
  are the `language`/`value` fields, `none` when the field is absent;
* `jsNull` — the JavaScript `null` value (note `typeof null === 'object'`);
* `otherPrimitive` — any remaining primitive (`undefined`, number, boolean,
  ...), for which `typeof` is neither `'object'` nor `'string'`. -/
inductive HoverFragment where
  | markdownStr (value : String)
  | plainStr (s : String)
  | obj (language : Option String) (value : Option String)
  | jsNull
  | otherPrimitive
deriving DecidableEq

/-- The fragment-normalization arrow function inside `getHoverInfo`
(`hover.contents.map(content => ...)`, extension.ts lines 64-74):

* a `MarkdownString` instance passes through as its `.value`;
* a primitive string passes through verbatim;
* an object with both a `language` and a `value` field becomes a fenced code
  block tagged with the language;
* anything else falls through to `return ''` —
  except the JavaScript `null` value: `typeof null === 'object'` succeeds, and
  then `'language' in content` throws a `TypeError`, modelled as `.error`. -/
def normalizeContent : HoverFragment → Except JsError String
  | .markdownStr v => .ok v
  | .plainStr s => .ok s
  | .obj language value =>
    match language, value with
    | some l, some v => .ok ("```" ++ l ++ "\n" ++ v ++ "\n```")
    | _, _ => .ok ""
  | .jsNull => .error .typeError
  | .otherPrimitive => .ok ""

/-- The string `normalizeContent` produces when it does not throw. -/
def normOk : HoverFragment → String
  | .markdownStr v => v
  | .plainStr s => s
  | .obj (some l) (some v) => "```" ++ l ++ "\n" ++ v ++ "\n```"
  | .obj _ _ => ""
  | .jsNull => ""
  | .otherPrimitive => ""

/-- One `vscode.Hover`. `contents` is `none` when the runtime value of
`hover.contents` is not an array (`Array.isArray(hover.contents)` false),
in which case the per-hover arrow function returns `undefined`. -/
structure Hover where
  contents : Option (List HoverFragment)
deriving DecidableEq

/-- The per-hover arrow function of `getHoverInfo`
(`hovers.map(hover => ...)`, extension.ts lines 63-76): when `hover.contents`
is an array, normalize every fragment and join with single newlines;
otherwise the arrow function falls off its end and yields `undefined`
(modelled as `none`). A thrown `TypeError` from a fragment propagates.

JavaScript `Array.map` with a callback that can throw aborts at the first
thrown error, which is what `mapNormalize` does. -/
def mapNormalize : List HoverFragment → Except JsError (List String)
  | [] => .ok []
  | f :: fs =>
    match normalizeContent f with
    | .error e => .error e
    | .ok s =>
      match mapNormalize fs with
      | .error e => .error e
      | .ok ss => .ok (s :: ss)

/-- The per-hover arrow function applied to one `Hover`: see `mapNormalize`. -/
def hoverEntryString (h : Hover) : Except JsError (Option String) :=
  match h.contents with
  | none => .ok none
  | some frags =>
    match mapNormalize frags with
    | .error e => .error e
    | .ok ss => .ok (some (String.intercalate "\n" ss))

/-- `getHoverInfo` (extension.ts lines 55-80), after the host has answered the
`vscode.executeHoverProvider` command with `hovers` (`none` models a falsy
result). If `hovers` is present and non-empty, the per-hover strings are
joined with a blank line (`.join('\n\n')`; JavaScript `join` renders an
`undefined` element as the empty string). Otherwise the result is
`undefined` (`none`), distinguished from any string.

`mapHoverEntries` is JavaScript `hovers.map(hover => ...)` with a callback
that can throw. -/
def mapHoverEntries : List Hover → Except JsError (List (Option String))
  | [] => .ok []
  | h :: hs =>
    match hoverEntryString h with
    | .error e => .error e
    | .ok entry =>
      match mapHoverEntries hs with
      | .error e => .error e
      | .ok entries => .ok (entry :: entries)

def getHoverInfo (hovers : Option (List Hover)) : Except JsError (Option String) :=
  match hovers with
  | some hs =>
    if hs.length > 0 then
      match mapHoverEntries hs with
      | .error e => .error e
      | .ok entries =>
        .ok (some (String.intercalate "\n\n" (entries.map (fun o => o.getD ""))))
    else
      .ok none
  | none => .ok none

/-- Modelled from the spec: markdown-it's `md.utils.escapeHtml`, library code
not under `src/` — the spec's renderer contract says fenced code is rendered
"with the raw code HTML-escaped". Escapes the four HTML-significant
characters of a single character. -/
def escapeHtmlChar (c : Char) : String :=
  if c = '&' then "&amp;"
  else if c = '<' then "&lt;"
  else if c = '>' then "&gt;"
  else if c = '"' then "&quot;"
  else String.singleton c

/-- Modelled from the spec: `md.utils.escapeHtml` over a list of characters. -/
def escapeHtmlList : List Char → String
  | [] => ""
  | c :: cs => escapeHtmlChar c ++ escapeHtmlList cs

/-- Modelled from the spec: `md.utils.escapeHtml` applied to a string. -/
def escapeHtml (s : String) : String := escapeHtmlList s.data

/-- The `highlight` hook installed on the MarkdownIt instance
(extension.ts lines 4-9): wraps the raw code of a fenced block, HTML-escaped
and untokenized, in a `<pre><code>` pair whose `class` attributes carry
`language-` plus the block's declared language. (The `console.log` call is a
side effect with no bearing on the returned string.) -/
def mdHighlight (str lang : String) : String :=
  "<pre class=\"language-" ++ lang ++ "\"><code class=\"language-" ++ lang ++ "\">"
    ++ escapeHtml str ++ "</code></pre>"

/-- The part of the page template of `getWebviewContent`
(extension.ts lines 85-123) before the `htmlContent` interpolation point.
Literal braces of the CSS are written as character escapes. -/
def pageShellBefore : String :=
"
        <!DOCTYPE html>
        <html lang=\"en\">
        <head>
            <meta charset=\"UTF-8\">
            <meta name=\"viewport\" content=\"width=device-width, initial-scale=1.0\">
            <title>Documentation Viewer</title>
            <link href=\"https://cdnjs.cloudflare.com/ajax/libs/prism/1.24.1/themes/prism.min.css\" rel=\"stylesheet\" />
            <style>
                body \x7b
                    font-family: var(--vscode-editor-font-family);
                    font-size: var(--vscode-editor-font-size);
                    padding: 10px;
                    color: var(--vscode-editor-foreground);
                    background-color: var(--vscode-editor-background);
                \x7d
                pre[class*=\"language-\"] \x7b
                    background-color: var(--vscode-textBlockQuote-background);
                    padding: 10px;
                    border-radius: 3px;
                \x7d
                code[class*=\"language-\"] \x7b
                    font-family: var(--vscode-editor-font-family);
                    background-color: transparent;
                    padding: 0;
                    border-radius: 0;
                \x7d
            </style>
        </head>
        <body>
            "

/-- The part of the page template of `getWebviewContent` after the
`htmlContent` interpolation point. -/
def pageShellAfter : String :=
"
            <script src=\"https://cdnjs.cloudflare.com/ajax/libs/prism/1.24.1/components/prism-core.min.js\"></script>
            <script src=\"https://cdnjs.cloudflare.com/ajax/libs/prism/1.24.1/plugins/autoloader/prism-autoloader.min.js\"></script>
            <script>
                Prism.highlightAll();
            </script>
        </body>
        </html>
    "

/-- The `htmlContent` binding of `getWebviewContent` (extension.ts line 83):
`const htmlContent = content ? md.render(content) : '';`. A string is truthy
in JavaScript exactly when it is non-empty, so both an absent `content` and
the empty string bypass the renderer. `render` stands for `md.render`
(library code), passed explicitly. -/
def htmlContentFor (render : String → String) (content : Option String) : String :=
  match content with
  | some c => if c.isEmpty then "" else render c
  | none => ""

/-- `getWebviewContent` (extension.ts lines 82-124): the page shell with
`htmlContent` interpolated at its body. -/
def getWebviewContent (render : String → String) (content : Option String) : String :=
  pageShellBefore ++ htmlContentFor render content ++ pageShellAfter

/-- A `vscode.Position`: a (line, character) pair. -/
structure Position where
  line : Nat
  character : Nat
deriving DecidableEq

/-- `vscode.Position.isEqual`: line/column equality. -/
def Position.isEqual (a b : Position) : Bool :=
  a.line == b.line && a.character == b.character

/-- A `vscode.TextEditor`, reduced to what the extension reads: an identity
and `editor.selection.active`, the primary cursor position. -/
structure Editor where
  id : Nat
  selectionActive : Position
deriving DecidableEq

/-- The options passed to `vscode.window.createWebviewPanel`. -/
structure WebviewOptions where
  enableScripts : Bool
  retainContextWhenHidden : Bool
deriving DecidableEq

/-- A `vscode.WebviewPanel` as the extension uses it: an identity (fresh per
creation) and its creation options. An `onDidDispose` hook clearing the
`docViewer` singleton is registered on every panel the extension creates;
its effect is the `onDidDispose` transition below. -/
structure WebviewPanel where
  id : Nat
  options : WebviewOptions
deriving DecidableEq

/-- The `vscode.ViewColumn` values the extension uses. -/
inductive ViewColumn where
  | beside
deriving DecidableEq

/-- The mutable state of the extension:
* `docViewer` — the module-level singleton panel reference;
* `lastPosition` — the `lastPosition` local of `activate`;
* `debounceTimer` — the pending debounce timeout, carrying the `editor` and
  `position` values captured by the scheduled callback (`none` when no
  timeout is pending; a cleared or fired timeout is `none`);
* `inFlight` — update cycles suspended at `await getHoverInfo(...)` inside
  `updateDocumentationContent`, oldest first;
* `nextPanelId` — fresh-identity supply for created panels;
* `createdCount` — how many panels `createWebviewPanel` has ever created. -/
structure ExtState where
  docViewer : Option WebviewPanel
  lastPosition : Option Position
  debounceTimer : Option (Editor × Position)
  inFlight : List (Editor × Position)
  nextPanelId : Nat
  createdCount : Nat
deriving DecidableEq

/-- Observable effects of one transition:
* `fetches` — hover queries started (`updateDocumentationContent` entered,
  i.e. one fetch-and-render cycle triggered), with the editor and position;
* `writes` — assignments to `docViewer.webview.html`, as the panel id and the
  `docContent` argument handed to `getWebviewContent`;
* `reveals` — calls to `panel.reveal`. -/
structure Output where
  fetches : List (Editor × Position)
  writes : List (Nat × Option String)
  reveals : List (Nat × ViewColumn)
deriving DecidableEq

/-- The empty effect. -/
def Output.empty : Output := ⟨[], [], []⟩

/-- Effect concatenation, in program order. -/
def Output.append (a b : Output) : Output :=
  ⟨a.fetches ++ b.fetches, a.writes ++ b.writes, a.reveals ++ b.reveals⟩

/-- First half of `updateDocumentationContent` (extension.ts lines 150-155):
the call starts a hover fetch for the given editor and position and suspends
at `await getHoverInfo(...)`. -/
def updateStart (s : ExtState) (editor : Editor) (position : Position) :
    ExtState × Output :=
  ({ s with inFlight := s.inFlight ++ [(editor, position)] },
   { fetches := [(editor, position)], writes := [], reveals := [] })

/-- Second half of `updateDocumentationContent`: the oldest suspended fetch
completes with `docContent`, and the panel is written only if `docViewer` is
still set (`if (docViewer) { docViewer.webview.html = ... }`). -/
def updateComplete (s : ExtState) (docContent : Option String) :
    ExtState × Output :=
  match s.inFlight with
  | [] => (s, Output.empty)
  | _ :: rest =>
    match s.docViewer with
    | none => ({ s with inFlight := rest }, Output.empty)
    | some panel =>
      ({ s with inFlight := rest },
       { fetches := [], writes := [(panel.id, docContent)], reveals := [] })

/-- The `onDidChangeTextEditorSelection` handler (extension.ts lines 22-46):
return if no panel or no active editor; ignore the event when the position
equals `lastPosition` (`lastPosition && position.isEqual(lastPosition)`);
otherwise record the position and cancel-and-replace the debounce timeout
with one capturing this `editor` and `position`. -/
def onSelectionChange (s : ExtState) (activeTextEditor : Option Editor) :
    ExtState × Output :=
  match s.docViewer with
  | none => (s, Output.empty)
  | some _ =>
    match activeTextEditor with
    | none => (s, Output.empty)
    | some editor =>
      let position := editor.selectionActive
      if (match s.lastPosition with
          | some lp => position.isEqual lp
          | none => false) then
        (s, Output.empty)
      else
        ({ s with
            lastPosition := some position,
            debounceTimer := some (editor, position) },
         Output.empty)

/-- The debounce timeout fires (callback at extension.ts lines 39-44): the
timeout is spent either way; if the panel was closed during the delay nothing
happens, otherwise `updateDocumentationContent(editor, position)` runs with
the captured arguments. -/
def debounceFire (s : ExtState) : ExtState × Output :=
  match s.debounceTimer with
  | none => (s, Output.empty)
  | some (editor, position) =>
    let s1 := { s with debounceTimer := none }
    match s1.docViewer with
    | none => (s1, Output.empty)
    | some _ => updateStart s1 editor position

/-- `openDocViewer` (extension.ts lines 126-148): reveal the existing panel
beside the current editor, or create a fresh one with `enableScripts` and
`retainContextWhenHidden` and register its disposal hook; then, if an editor
is active, run one `updateDocumentationContent` cycle for its cursor. -/
def openDocViewer (s : ExtState) (activeTextEditor : Option Editor) :
    ExtState × Output :=
  let step1 : ExtState × Output :=
    match s.docViewer with
    | some panel =>
      (s, { fetches := [], writes := [], reveals := [(panel.id, ViewColumn.beside)] })
    | none =>
      ({ s with
          docViewer := some
            { id := s.nextPanelId,
              options := { enableScripts := true, retainContextWhenHidden := true } },
          nextPanelId := s.nextPanelId + 1,
          createdCount := s.createdCount + 1 },
       Output.empty)
  match activeTextEditor with
  | none => step1
  | some editor =>
    let step2 := updateStart step1.1 editor editor.selectionActive
    (step2.1, Output.append step1.2 step2.2)

/-- The `onDidDispose` hook registered in `openDocViewer`
(extension.ts lines 141-143): clears the singleton reference. -/
def onDidDispose (s : ExtState) : ExtState :=
  { s with docViewer := none }

/-- A burst of selection-change events, processed in order, with the effects
concatenated. -/
def runSelections (s : ExtState) (es : List Editor) : ExtState × Output :=
  match es with
  | [] => (s, Output.empty)
  | e :: rest =>
    let step1 := onSelectionChange s (some e)
    let step2 := runSelections step1.1 rest
    (step2.1, Output.append step1.2 step2.2)

/-- Whether a fragment has one of the three shapes the normalization
recognizes: a `MarkdownString` instance, a primitive string, or an object
carrying both a `language` and a `value` field. -/
def recognizedShape : HoverFragment → Bool
  | .markdownStr _ => true
  | .plainStr _ => true
  | .obj (some _) (some _) => true
  | .obj _ _ => false
  | .jsNull => false
  | .otherPrimitive => false

/-- `Position.isEqual` is line/column equality. -/
theorem Position.isEqual_iff (a b : Position) : a.isEqual b = true ↔ a = b := by
  cases a
  cases b
  simp [Position.isEqual, Position.mk.injEq, Bool.and_eq_true, beq_iff_eq]

/-- Normalization succeeds on every fragment other than the JavaScript
`null`, producing `normOk`. -/
theorem normalizeContent_ok_of_ne (f : HoverFragment) (hf : f ≠ HoverFragment.jsNull) :
    normalizeContent f = Except.ok (normOk f) := by
  cases f with
  | markdownStr v => rfl
  | plainStr s => rfl
  | obj language value => rcases language with _ | l <;> rcases value with _ | v <;> rfl
  | jsNull => exact absurd rfl hf
  | otherPrimitive => rfl

/-- A sample position, editor, panel and state for closed instantiations. -/
def samplePosition : Position := ⟨3, 5⟩

/-- A second sample position, distinct from `samplePosition`. -/
def samplePosition2 : Position := ⟨4, 0⟩

/-- A sample editor whose cursor sits at `samplePosition`. -/
def sampleEditor : Editor := ⟨1, samplePosition⟩

/-- The same editor after the cursor moved to `samplePosition2`. -/
def sampleEditor2 : Editor := ⟨1, samplePosition2⟩

/-- A sample live panel. -/
def samplePanel : WebviewPanel := ⟨0, ⟨true, true⟩⟩

/-- A state with the sample panel open and nothing pending. -/
def sampleOpenState : ExtState := ⟨some samplePanel, none, none, [], 1, 1⟩

/-- C4: with zero hover entries — or no entry list at all — `getHoverInfo`
answers the distinguished `none` (not a string, in particular not the empty
string), and the page built for the panel is the full shell with an empty
body content section. -/
theorem claim_c4_no_content :
    getHoverInfo none = Except.ok none
    ∧ getHoverInfo (some []) = Except.ok none
    ∧ getHoverInfo (some []) ≠ Except.ok (some "")
    ∧ ∀ render : String → String,
        getWebviewContent render none = pageShellBefore ++ pageShellAfter := by
  refine ⟨rfl, rfl, by intro h; simp [getHoverInfo] at h, fun render => ?_⟩
  show pageShellBefore ++ "" ++ pageShellAfter = pageShellBefore ++ pageShellAfter
  rw [String.append_empty]

/-- C6: normalization passes markdown and plain-string fragments through
verbatim and turns a `{language, value}` fragment into a fenced code block
tagged with its language; with language `python` and value `print(1)` the
block is exactly ```` ```python\nprint(1)\n``` ````. -/
theorem claim_c6_fragment_normalization :
    (∀ v, normalizeContent (HoverFragment.markdownStr v) = Except.ok v)
    ∧ (∀ s, normalizeContent (HoverFragment.plainStr s) = Except.ok s)
    ∧ (∀ l v, normalizeContent (HoverFragment.obj (some l) (some v)) =
        Except.ok ("```" ++ l ++ "\n" ++ v ++ "\n```"))
    ∧ normalizeContent (HoverFragment.obj (some "python") (some "print(1)")) =
        Except.ok "```python\nprint(1)\n```" :=
  ⟨fun _ => rfl, fun _ => rfl, fun _ _ => rfl, rfl⟩

/-- Instantiation of C6 at the `python`/`print(1)` fragment and a markdown
fragment. -/
theorem claim_c6_witness :
    normalizeContent (HoverFragment.markdownStr "**bold**") = Except.ok "**bold**"
    ∧ normalizeContent (HoverFragment.obj (some "python") (some "print(1)")) =
        Except.ok "```python\nprint(1)\n```" :=
  ⟨claim_c6_fragment_normalization.1 "**bold**",
   claim_c6_fragment_normalization.2.2.2⟩

/-- C9: the page built for the empty string is the very page built for the
absent value, whatever the markdown renderer does — the empty string is
falsy, so it is never handed to the renderer. -/
theorem claim_c9_empty_collapses (render : String → String) :
    getWebviewContent render (some "") = getWebviewContent render none := rfl

/-- Instantiation of C9 at a concrete renderer. -/
theorem claim_c9_witness :
    getWebviewContent (fun s => s ++ s) (some "") =
      getWebviewContent (fun s => s ++ s) none :=
  claim_c9_empty_collapses (fun s => s ++ s)

/-- C10 fails as stated: the JavaScript `null` value is neither a markdown
object, nor a string, nor an object with `language` and `value` fields, yet
normalization does not return the empty string on it — `typeof null` is
`'object'`, so the code reaches `'language' in content`, which throws a
`TypeError` on `null`; the error propagates out of `getHoverInfo`. -/
theorem claim_c10_counterexample :
    recognizedShape HoverFragment.jsNull = false
    ∧ normalizeContent HoverFragment.jsNull ≠ Except.ok ""
    ∧ normalizeContent HoverFragment.jsNull = Except.error JsError.typeError
    ∧ getHoverInfo (some [⟨some [HoverFragment.jsNull]⟩]) =
        Except.error JsError.typeError :=
  ⟨rfl, by simp [normalizeContent], rfl, rfl⟩

/-- C10 amended: normalization is total on every fragment outside the three
recognized shapes except the JavaScript `null` value, returning the empty
string there, so `getHoverInfo` only errors when a fragment is `null`. -/
theorem claim_c10_amended (f : HoverFragment)
    (hshape : recognizedShape f = false)
    (hnull : f ≠ HoverFragment.jsNull) :
    normalizeContent f = Except.ok "" := by
  cases f with
  | markdownStr v => exact absurd hshape (by simp [recognizedShape])
  | plainStr s => exact absurd hshape (by simp [recognizedShape])
  | obj language value =>
    rcases language with _ | l <;> rcases value with _ | v <;>
      first
        | rfl
        | exact absurd hshape (by simp [recognizedShape])
  | jsNull => exact absurd rfl hnull
  | otherPrimitive => rfl

/-- Instantiation of the amended C10 at a non-object, non-string fragment. -/
theorem claim_c10_witness :
    recognizedShape HoverFragment.otherPrimitive = false
    ∧ HoverFragment.otherPrimitive ≠ HoverFragment.jsNull
    ∧ normalizeContent HoverFragment.otherPrimitive = Except.ok "" :=
  ⟨rfl, by decide, claim_c10_amended HoverFragment.otherPrimitive rfl (by decide)⟩

/-- C2: a selection-change event at the position already recorded in
`lastPosition` is ignored outright — the state (recorded position, pending
debounce timer, panel) is untouched and no fetch is triggered. -/
theorem claim_c2_equal_position_ignored (s : ExtState) (e : Editor) (p : Position)
    (hlast : s.lastPosition = some p)
    (heq : e.selectionActive = p) :
    onSelectionChange s (some e) = (s, Output.empty) := by
  subst heq
  rcases hdv : s.docViewer with _ | panel
  · simp [onSelectionChange, hdv]
  · simp [onSelectionChange, hdv, hlast, Position.isEqual_iff]

/-- Instantiation of C2: the cursor stays at `samplePosition` while a timer
is pending; nothing changes. -/
theorem claim_c2_witness :
    onSelectionChange
        ⟨some samplePanel, some samplePosition,
         some (sampleEditor, samplePosition), [], 1, 1⟩
        (some sampleEditor) =
      (⟨some samplePanel, some samplePosition,
        some (sampleEditor, samplePosition), [], 1, 1⟩, Output.empty) :=
  claim_c2_equal_position_ignored _ sampleEditor samplePosition rfl rfl

/-- C7: once the panel is closed, a firing debounce timer only consumes the
timeout — no fetch starts and nothing is written — and a hover fetch that
completes finds `docViewer` cleared and is discarded without writing. -/
theorem claim_c7_no_write_after_close (s : ExtState) (c : Option String)
    (hclosed : s.docViewer = none) :
    debounceFire s = ({ s with debounceTimer := none }, Output.empty)
    ∧ (updateComplete s c).2 = Output.empty := by
  obtain ⟨dv, lp, dt, fl, np, cc⟩ := s
  simp only [] at hclosed
  subst hclosed
  exact ⟨by cases dt <;> rfl, by cases fl <;> rfl⟩

/-- Instantiation of C7 on a closed-panel state with a pending timer and an
in-flight fetch. -/
theorem claim_c7_witness :
    debounceFire ⟨none, some samplePosition, some (sampleEditor, samplePosition),
        [(sampleEditor, samplePosition)], 1, 1⟩ =
      (⟨none, some samplePosition, none,
        [(sampleEditor, samplePosition)], 1, 1⟩, Output.empty)
    ∧ (updateComplete ⟨none, some samplePosition, some (sampleEditor, samplePosition),
        [(sampleEditor, samplePosition)], 1, 1⟩ (some "docs")).2 = Output.empty :=
  claim_c7_no_write_after_close _ (some "docs") rfl

/-- Every character `escapeHtmlChar` emits is HTML-safe: never a raw `<`,
`>` or `"`. -/
theorem escapeHtmlChar_safe (c : Char) :
    ∀ d ∈ (escapeHtmlChar c).data, d ≠ '<' ∧ d ≠ '>' ∧ d ≠ '"' := by
  intro d hd
  unfold escapeHtmlChar at hd
  by_cases h1 : c = '&'
  · rw [if_pos h1] at hd
    have : ("&amp;").data = ['&', 'a', 'm', 'p', ';'] := rfl
    rw [this] at hd
    fin_cases hd <;> decide
  · rw [if_neg h1] at hd
    by_cases h2 : c = '<'
    · rw [if_pos h2] at hd
      have : ("&lt;").data = ['&', 'l', 't', ';'] := rfl
      rw [this] at hd
      fin_cases hd <;> decide
    · rw [if_neg h2] at hd
      by_cases h3 : c = '>'
      · rw [if_pos h3] at hd
        have : ("&gt;").data = ['&', 'g', 't', ';'] := rfl
        rw [this] at hd
        fin_cases hd <;> decide
      · rw [if_neg h3] at hd
        by_cases h4 : c = '"'
        · rw [if_pos h4] at hd
          have : ("&quot;").data = ['&', 'q', 'u', 'o', 't', ';'] := rfl
          rw [this] at hd
          fin_cases hd <;> decide
        · rw [if_neg h4] at hd
          have : (String.singleton c).data = [c] := rfl
          rw [this] at hd
          rcases List.mem_singleton.mp hd with rfl
          exact ⟨h2, h3, h4⟩

/-- Every character the escaped text contains is HTML-safe. -/
theorem escapeHtmlList_safe (l : List Char) :
    ∀ d ∈ (escapeHtmlList l).data, d ≠ '<' ∧ d ≠ '>' ∧ d ≠ '"' := by
  induction l with
  | nil => intro d hd; cases hd
  | cons c cs ih =>
    intro d hd
    rw [show escapeHtmlList (c :: cs) = escapeHtmlChar c ++ escapeHtmlList cs from rfl,
        String.data_append] at hd
    rcases List.mem_append.mp hd with h | h
    · exact escapeHtmlChar_safe c d h
    · exact ih d h

/-- Escaping leaves a string without HTML-significant characters verbatim. -/
theorem escapeHtmlList_id (l : List Char)
    (hsafe : ∀ c ∈ l, c ≠ '&' ∧ c ≠ '<' ∧ c ≠ '>' ∧ c ≠ '"') :
    escapeHtmlList l = ⟨l⟩ := by
  induction l with
  | nil => rfl
  | cons c cs ih =>
    obtain ⟨h1, h2, h3, h4⟩ := hsafe c (List.mem_cons_self c cs)
    have hc : escapeHtmlChar c = String.singleton c := by
      unfold escapeHtmlChar
      rw [if_neg h1, if_neg h2, if_neg h3, if_neg h4]
    have hcs : escapeHtmlList cs = ⟨cs⟩ :=
      ih (fun d hd => hsafe d (List.mem_cons_of_mem c hd))
    show escapeHtmlChar c ++ escapeHtmlList cs = ⟨c :: cs⟩
    rw [hc, hcs]
    rfl

/-- C8: with an absent markdown string the rendered HTML is the empty
string; the highlight hook turns a fenced block into a `<pre><code>` pair
whose classes carry the declared language around the HTML-escaped raw code;
escaping emits no raw `<`, `>` or `"`, and applies no transformation beyond
the four character escapes (code without HTML-significant characters passes
through verbatim — no tokenization). -/
theorem claim_c8_renderer_contract :
    (∀ render : String → String, htmlContentFor render none = "")
    ∧ (∀ str lang, mdHighlight str lang =
        "<pre class=\"language-" ++ lang ++ "\"><code class=\"language-" ++ lang
          ++ "\">" ++ escapeHtml str ++ "</code></pre>")
    ∧ (∀ str, ∀ d ∈ (escapeHtml str).data, d ≠ '<' ∧ d ≠ '>' ∧ d ≠ '"')
    ∧ (∀ str : String,
        (∀ c ∈ str.data, c ≠ '&' ∧ c ≠ '<' ∧ c ≠ '>' ∧ c ≠ '"') →
        escapeHtml str = str) := by
  refine ⟨fun _ => rfl, fun _ _ => rfl, fun str => escapeHtmlList_safe str.data, ?_⟩
  intro str hsafe
  show escapeHtmlList str.data = str
  rw [escapeHtmlList_id str.data hsafe]

/-- Instantiation of C8: the hook output for the `python` block of C6. -/
theorem claim_c8_witness :
    mdHighlight "print(1)" "python" =
      "<pre class=\"language-python\"><code class=\"language-python\">print(1)</code></pre>" := by
  have h2 := claim_c8_renderer_contract.2.1 "print(1)" "python"
  have h4 := claim_c8_renderer_contract.2.2.2 "print(1)" (by decide)
  rw [h2, h4]
  rfl

/-- C3: invoking the open command reuses an existing panel (nothing is
created, the panel is revealed beside the current editor); whenever an
editor is active the call starts exactly one fetch-and-render cycle at its
cursor; without a panel a fresh one is created with scripts enabled and
state retained when hidden; and the registered disposal hook clears the
singleton reference. -/
theorem claim_c3_open_command (s : ExtState) (ae : Option Editor) :
    (∀ panel, s.docViewer = some panel →
        (openDocViewer s ae).1.docViewer = some panel
      ∧ (openDocViewer s ae).1.createdCount = s.createdCount
      ∧ (openDocViewer s ae).2.reveals = [(panel.id, ViewColumn.beside)])
    ∧ (∀ e, ae = some e →
        (openDocViewer s ae).2.fetches = [(e, e.selectionActive)])
    ∧ (s.docViewer = none →
        (openDocViewer s ae).1.docViewer =
          some { id := s.nextPanelId,
                 options := { enableScripts := true, retainContextWhenHidden := true } }
      ∧ (openDocViewer s ae).1.createdCount = s.createdCount + 1)
    ∧ (∀ s2 : ExtState, (onDidDispose s2).docViewer = none) := by
  refine ⟨?_, ?_, ?_, fun s2 => rfl⟩
  · intro panel hp
    rcases ae with _ | e <;>
      simp [openDocViewer, updateStart, Output.append, hp]
  · intro e he
    subst he
    rcases h : s.docViewer with _ | panel <;>
      simp [openDocViewer, updateStart, Output.append, Output.empty, h]
  · intro h
    rcases ae with _ | e <;>
      simp [openDocViewer, updateStart, Output.append, Output.empty, h]

/-- Instantiation of C3: opening with the sample panel already open reveals
it, creates nothing, and fetches once at the active cursor. -/
theorem claim_c3_witness :
    (openDocViewer sampleOpenState (some sampleEditor)).1.docViewer = some samplePanel
    ∧ (openDocViewer sampleOpenState (some sampleEditor)).1.createdCount =
        sampleOpenState.createdCount
    ∧ (openDocViewer sampleOpenState (some sampleEditor)).2.fetches =
        [(sampleEditor, samplePosition)] := by
  have h := claim_c3_open_command sampleOpenState (some sampleEditor)
  exact ⟨(h.1 samplePanel rfl).1, (h.1 samplePanel rfl).2.1, h.2.1 sampleEditor rfl⟩

/-- A fragment list without the JavaScript `null` value normalizes cleanly,
fragmentwise. -/
theorem mapNormalize_ok (l : List HoverFragment) (h : HoverFragment.jsNull ∉ l) :
    mapNormalize l = Except.ok (l.map normOk) := by
  induction l with
  | nil => rfl
  | cons f fs ih =>
    have hf : f ≠ HoverFragment.jsNull := fun he => h (he ▸ List.mem_cons_self f fs)
    have hfs : HoverFragment.jsNull ∉ fs := fun hm => h (List.mem_cons_of_mem f hm)
    show (match normalizeContent f with
      | .error e => .error e
      | .ok s =>
        match mapNormalize fs with
        | .error e => .error e
        | .ok ss => Except.ok (s :: ss)) = Except.ok ((f :: fs).map normOk)
    rw [normalizeContent_ok_of_ne f hf, ih hfs]
    rfl

/-- A hover list whose entries all carry `null`-free fragment arrays maps to
its per-entry joined strings. -/
theorem mapHoverEntries_ok (hs : List Hover)
    (hok : ∀ h ∈ hs, ∃ frags, h.contents = some frags ∧ HoverFragment.jsNull ∉ frags) :
    mapHoverEntries hs =
      Except.ok (hs.map (fun h =>
        some (String.intercalate "\n" ((h.contents.getD []).map normOk)))) := by
  induction hs with
  | nil => rfl
  | cons h t ih =>
    obtain ⟨frags, hc, hn⟩ := hok h (List.mem_cons_self h t)
    have he : hoverEntryString h =
        Except.ok (some (String.intercalate "\n" (frags.map normOk))) := by
      simp [hoverEntryString, hc, mapNormalize_ok frags hn]
    have ht := ih (fun h' hm => hok h' (List.mem_cons_of_mem h hm))
    simp [mapHoverEntries, he, ht, hc]

/-- C5: for a non-empty hover list whose entries are fragment arrays free of
the JavaScript `null` value, `getHoverInfo` joins the normalized fragments
of each entry with single newlines and the per-entry strings with a blank
line. -/
theorem claim_c5_join_structure (hs : List Hover)
    (hne : hs ≠ [])
    (hok : ∀ h ∈ hs, ∃ frags, h.contents = some frags ∧ HoverFragment.jsNull ∉ frags) :
    getHoverInfo (some hs) =
      Except.ok (some (String.intercalate "\n\n"
        (hs.map (fun h => String.intercalate "\n" ((h.contents.getD []).map normOk))))) := by
  have hlen : hs.length > 0 := List.length_pos.mpr hne
  show (if hs.length > 0 then
      match mapHoverEntries hs with
      | .error e => .error e
      | .ok entries =>
        Except.ok (some (String.intercalate "\n\n" (entries.map (fun o => o.getD ""))))
    else Except.ok none) = _
  rw [if_pos hlen, mapHoverEntries_ok hs hok]
  simp only [List.map_map, Function.comp_def, Option.getD_some]

/-- Instantiation of C5 at the two entries of the claim: contents
`["**bold**"]` and `["plain"]` join to exactly `**bold**\n\nplain`. -/
theorem claim_c5_witness :
    getHoverInfo (some [⟨some [HoverFragment.plainStr "**bold**"]⟩,
                        ⟨some [HoverFragment.plainStr "plain"]⟩]) =
      Except.ok (some "**bold**\n\nplain") := by
  have h := claim_c5_join_structure
      [⟨some [HoverFragment.plainStr "**bold**"]⟩,
       ⟨some [HoverFragment.plainStr "plain"]⟩]
      (by decide)
      (by
        intro h hm
        simp only [List.mem_cons, List.not_mem_nil, or_false] at hm
        rcases hm with rfl | rfl
        · exact ⟨[HoverFragment.plainStr "**bold**"], rfl, by decide⟩
        · exact ⟨[HoverFragment.plainStr "plain"], rfl, by decide⟩)
  rw [h]
  rfl

/-- Unfolding equation for `runSelections` on a cons cell. -/
theorem runSelections_cons (s : ExtState) (e : Editor) (rest : List Editor) :
    runSelections s (e :: rest) =
      ((runSelections (onSelectionChange s (some e)).1 rest).1,
       Output.append (onSelectionChange s (some e)).2
         (runSelections (onSelectionChange s (some e)).1 rest).2) := rfl

/-- A selection-change event whose position differs from the recorded one
(or arrives with none recorded) is accepted: it records the position and
cancel-and-replaces the debounce timer, with no other effect. -/
theorem onSelectionChange_accepted (s : ExtState) (e : Editor)
    (hpanel : s.docViewer.isSome = true)
    (hfresh : ∀ p, s.lastPosition = some p → e.selectionActive ≠ p) :
    onSelectionChange s (some e) =
      ({ s with lastPosition := some e.selectionActive,
                debounceTimer := some (e, e.selectionActive) }, Output.empty) := by
  obtain ⟨panel, hdv⟩ := Option.isSome_iff_exists.mp hpanel
  rcases hlp : s.lastPosition with _ | p
  · simp [onSelectionChange, hdv, hlp]
  · have hne : e.selectionActive.isEqual p = false := by
      rcases hIsEq : e.selectionActive.isEqual p with _ | _
      · rfl
      · exact absurd ((Position.isEqual_iff _ _).mp hIsEq) (hfresh p hlp)
    simp [onSelectionChange, hdv, hlp, hne]

/-- A burst of accepted events collapses to one pending timer carrying the
last event, and nothing else changes. -/
theorem runSelections_accepted (es : List Editor) :
    ∀ (s : ExtState) (last : Editor),
      s.docViewer.isSome = true →
      es.getLast? = some last →
      (es.map Editor.selectionActive).Pairwise (fun a b => a ≠ b) →
      (∀ e p, es.head? = some e → s.lastPosition = some p → e.selectionActive ≠ p) →
      runSelections s es =
        ({ s with lastPosition := some last.selectionActive,
                  debounceTimer := some (last, last.selectionActive) }, Output.empty) := by
  induction es with
  | nil =>
    intro s last _ hlast _ _
    simp at hlast
  | cons e rest ih =>
    intro s last hpanel hlast hpw hfirst
    have hstep := onSelectionChange_accepted s e hpanel
      (fun p hp => hfirst e p rfl hp)
    rcases rest with _ | ⟨e2, rest2⟩
    · have hle : last = e := by
        have h1 : some e = some last := by simpa using hlast
        simpa using h1.symm
      subst hle
      rw [runSelections_cons, hstep]
      rfl
    · have hlast2 : (e2 :: rest2).getLast? = some last := by
        rw [List.getLast?_cons_cons] at hlast
        exact hlast
      have hpw1 : (Editor.selectionActive e ::
          (e2 :: rest2).map Editor.selectionActive).Pairwise (fun a b => a ≠ b) := by
        simpa using hpw
      obtain ⟨hpwHead, hpw2⟩ := List.pairwise_cons.mp hpw1
      have hne12 : e2.selectionActive ≠ e.selectionActive := by
        have h1 : e.selectionActive ≠ e2.selectionActive :=
          hpwHead e2.selectionActive (by simp)
        exact fun h => h1 h.symm
      have hfirst2 : ∀ e' p, (e2 :: rest2).head? = some e' →
          ({ s with lastPosition := some e.selectionActive,
                    debounceTimer := some (e, e.selectionActive) } :
            ExtState).lastPosition = some p →
          e'.selectionActive ≠ p := by
        intro e' p he' hp
        obtain rfl : e2 = e' := by simpa using he'
        obtain rfl : e.selectionActive = p := by
          have h2 : some e.selectionActive = some p := hp
          simpa using h2
        exact hne12
      have ihres := ih
        { s with lastPosition := some e.selectionActive,
                 debounceTimer := some (e, e.selectionActive) }
        last hpanel hlast2 hpw2 hfirst2
      rw [runSelections_cons, hstep]
      show ((runSelections
              { s with lastPosition := some e.selectionActive,
                       debounceTimer := some (e, e.selectionActive) } (e2 :: rest2)).1,
            Output.append Output.empty
              (runSelections
                { s with lastPosition := some e.selectionActive,
                         debounceTimer := some (e, e.selectionActive) } (e2 :: rest2)).2) = _
      rw [ihres]
      rfl

/-- C1: while the panel is open, a burst of selection-change events at
pairwise-distinct positions (the first differing from any recorded position)
triggers no fetch by itself — each event cancels the pending scheduled
update and schedules a new one — and leaves exactly one pending timer
carrying the last event; when that timer fires, exactly one fetch-and-render
cycle starts, at the position of the last event. -/
theorem claim_c1_debounce_last_wins (s : ExtState) (es : List Editor) (last : Editor)
    (hpanel : s.docViewer.isSome = true)
    (hlast : es.getLast? = some last)
    (hpw : (es.map Editor.selectionActive).Pairwise (fun a b => a ≠ b))
    (hfirst : ∀ e p, es.head? = some e → s.lastPosition = some p →
        e.selectionActive ≠ p) :
    (runSelections s es).2 = Output.empty
    ∧ (runSelections s es).1.debounceTimer = some (last, last.selectionActive)
    ∧ (debounceFire (runSelections s es).1).2 =
        { fetches := [(last, last.selectionActive)], writes := [], reveals := [] } := by
  have hrun := runSelections_accepted es s last hpanel hlast hpw hfirst
  obtain ⟨panel, hdv⟩ := Option.isSome_iff_exists.mp hpanel
  rw [hrun]
  refine ⟨rfl, rfl, ?_⟩
  show (debounceFire
      { s with lastPosition := some last.selectionActive,
               debounceTimer := some (last, last.selectionActive) }).2 = _
  unfold debounceFire
  simp [hdv, updateStart]

/-- Instantiation of C1: two rapid moves with the sample panel open collapse
to one fetch at the second position. -/
theorem claim_c1_witness :
    (runSelections sampleOpenState [sampleEditor, sampleEditor2]).2 = Output.empty
    ∧ (runSelections sampleOpenState [sampleEditor, sampleEditor2]).1.debounceTimer =
        some (sampleEditor2, samplePosition2)
    ∧ (debounceFire (runSelections sampleOpenState [sampleEditor, sampleEditor2]).1).2 =
        { fetches := [(sampleEditor2, samplePosition2)], writes := [], reveals := [] } :=
  claim_c1_debounce_last_wins sampleOpenState [sampleEditor, sampleEditor2] sampleEditor2
    rfl rfl
    (by
      simp [List.pairwise_cons, sampleEditor, sampleEditor2]
      decide)
    (by
      intro e p _ hp
      simp [sampleOpenState] at hp)

/-- Instantiation of C4 at a concrete renderer. -/
theorem claim_c4_witness :
    getWebviewContent (fun s => s ++ "!") none = pageShellBefore ++ pageShellAfter :=
  claim_c4_no_content.2.2.2 (fun s => s ++ "!")
